/-
  Verification of the live-lang compiler core (chain-to-IR lowering and
  spatial-aware IR evaluation) against its specification.

  The Rust sources are shallowly embedded:
  * f32 scalar arithmetic is idealised as exact rational arithmetic (ℚ);
    the transcendental GLSL.std.450 primitives (Sin, Cos, Atan2, Sqrt, Pow)
    are abstracted as a parameter structure `Prims`, everything else
    (Floor, FMin, FMax, mix, fract, ...) is computed exactly.
  * SPIR-V value ids (`Word`) denote the values they compute, so an emitter
    function `emit_*` is embedded as the mathematical function it emits.
  * the `variables` map of the emitter is split: the output-buffer entries
    `o{i}` become `Buffers : Nat → Option Color` (the `_st` / `_base_uv`
    entries are only coordinate plumbing and appear as explicit arguments).
  * the recursive `emit_ir_node` visitor takes a fuel argument; the Rust
    function recurses on arbitrary node ids and is partial on malformed
    graphs, fuel makes that partiality explicit.
  Names follow src/ (ir/node.rs, ir/builder.rs, backend/spirv_visitor.rs,
  backend/spirv_helpers.rs, backend/hydra_sources.rs, backend/hydra_effects.rs).
-/
import Mathlib

namespace LiveLang

/-! ## Scalar helpers (backend/spirv_helpers.rs) -/

/-- GLSL.std.450 Floor (opcode 8), exact on ℚ. -/
def rfloor (x : ℚ) : ℚ := (⌊x⌋ : ℚ)

/-- emit_fract: fract(x) = x - floor(x). -/
def fract (x : ℚ) : ℚ := x - rfloor x

/-- emit_mod_scalar: x - y * floor(x / y). -/
def rmod (x y : ℚ) : ℚ := x - y * rfloor (x / y)

/-- GLSL.std.450 FMin (opcode 39), exact on ℚ. -/
def rmin (x y : ℚ) : ℚ := if x ≤ y then x else y

/-- GLSL.std.450 FMax (opcode 42), exact on ℚ. -/
def rmax (x y : ℚ) : ℚ := if y ≤ x then x else y

/-- GLSL.std.450 FAbs (opcode 4), exact on ℚ. -/
def rabs (x : ℚ) : ℚ := if x < 0 then -x else x

lemma rmin_eq (x y : ℚ) : rmin x y = min x y := (min_def x y).symm

lemma rmax_eq (x y : ℚ) : rmax x y = max x y := by
  unfold rmax
  by_cases hyx : y ≤ x
  · rw [if_pos hyx, max_eq_left hyx]
  · push_neg at hyx
    rw [if_neg (not_le.mpr hyx), max_eq_right (le_of_lt hyx)]

lemma rabs_eq (x : ℚ) : rabs x = |x| := by
  unfold rabs
  by_cases hx : x < 0
  · rw [if_pos hx, abs_of_neg hx]
  · rw [if_neg hx, abs_of_nonneg (not_lt.mp hx)]

/-- clamp01: min(max(x,0),1) via FMax / FMin. -/
def clamp01 (x : ℚ) : ℚ := rmin (rmax x 0) 1

/-- mix(a, b, t) = a * (1-t) + b * t. -/
def mix (a b t : ℚ) : ℚ := a * (1 - t) + b * t

/-- emit_step: x < edge ? 0.0 : 1.0. -/
def step (edge x : ℚ) : ℚ := if x < edge then 0 else 1

/-- emit_quantize: floor(x * levels)/levels. -/
def quantize (x levels : ℚ) : ℚ := rfloor (x * levels) / levels

/-- smoothstep: t = clamp01((x-e0)/(e1-e0)); t*t*(3-2t). -/
def smoothstep (e0 e1 x : ℚ) : ℚ :=
  (clamp01 ((x - e0) / (e1 - e0))) * (clamp01 ((x - e0) / (e1 - e0)))
    * (3 - 2 * clamp01 ((x - e0) / (e1 - e0)))

/-- Abstract transcendental GLSL.std.450 instructions (Sin 13, Cos 14,
    Atan2 25, Sqrt 32, Pow 26); every other opcode is exact on ℚ. -/
structure Prims where
  rsin : ℚ → ℚ
  rcos : ℚ → ℚ
  ratan2 : ℚ → ℚ → ℚ
  rsqrt : ℚ → ℚ
  rpow : ℚ → ℚ → ℚ

/-- safe_pow: pow(min(max(x,0),1), y). -/
def safe_pow (P : Prims) (x y : ℚ) : ℚ := P.rpow (rmin (rmax x 0) 1) y

/-- emit_length2: sqrt(x*x + y*y). -/
def length2 (P : Prims) (x y : ℚ) : ℚ := P.rsqrt (x * x + y * y)

/-- A vec4 color value. -/
structure Color where
  r : ℚ
  g : ℚ
  b : ℚ
  a : ℚ
deriving DecidableEq

/-- A vec2 texture coordinate. -/
structure Vec2 where
  x : ℚ
  y : ℚ
deriving DecidableEq

/-- emit_luma: 0.299 r + 0.587 g + 0.114 b. -/
def luma (c : Color) : ℚ := c.r * 0.299 + c.g * 0.587 + c.b * 0.114

/-- apply_rgb: per-channel map on RGB preserving alpha. -/
def apply_rgb (c : Color) (f : ℚ → ℚ) : Color := ⟨f c.r, f c.g, f c.b, c.a⟩

/-! ## IR node model (ir/node.rs); NodeId is a plain Nat index -/

inductive SourceType
  | osc | noise | solid | gradient | shape | voronoi | src
deriving DecidableEq

inductive SpatialType
  | scale | kaleid | rotate | scrollX | scrollY | scroll
  | repeat | repeatX | repeatY | pixelate
deriving DecidableEq

inductive UnaryColorType
  | invert | color | brightness | contrast | saturate | posterize | thresh
  | hue | colorama | luma | shift
deriving DecidableEq

inductive BinaryType
  | add | sub | mult | blend | diff | layer | mask
  | modulate | modulateScale
deriving DecidableEq

/-- IRKind (the IRNode wrapper struct holds nothing else). -/
inductive IRKind
  | source (ty : SourceType) (args : List ℚ)
  | spatial (ty : SpatialType) (args : List ℚ) (child : Nat)
  | unaryColor (ty : UnaryColorType) (args : List ℚ) (child : Nat)
  | binary (ty : BinaryType) (args : List ℚ) (left : Nat) (right : Nat)
  | output (child : Nat) (index : Nat)
deriving DecidableEq

/-! ## AST model (the swc expression shapes the builder inspects).
    `call` is `Expr::Call` with `Callee::Expr`; a Super/Import callee is an
    `other` callee expression (both reach the builder's catch-all).
    `member` carries `Some name` for `MemberProp::Ident`, `none` otherwise. -/

inductive JsExpr
  | call (callee : JsExpr) (args : List JsExpr)
  | member (obj : JsExpr) (prop : Option String)
  | ident (name : String)
  | num (value : ℚ)
  | other

inductive JsStmt
  | exprStmt (e : JsExpr)
  | other

/-! ## IR builder (ir/builder.rs) -/

/-- IRBuilder::push: the new node's id is the index it is stored at. -/
def push (nodes : List IRKind) (k : IRKind) : Nat × List IRKind :=
  (nodes.length, nodes ++ [k])

/-- extract_f32_args: keep numeric literals, silently skip the rest. -/
def extract_f32_args (args : List JsExpr) : List ℚ :=
  args.filterMap fun a => match a with
    | JsExpr.num v => some v
    | _ => none

/-- Rust `f as u32` saturating cast (negatives to 0, truncate toward zero). -/
def numToU32 (v : ℚ) : Nat :=
  if v ≤ 0 then 0 else Nat.min (Int.toNat ⌊v⌋) (2 ^ 32 - 1)

/-- The `out(i)` index: first argument if it is a numeric literal, else 0. -/
def out_index (args : List JsExpr) : Nat :=
  match args with
  | JsExpr.num v :: _ => numToU32 v
  | _ => 0

/-- Binary second positional argument: kept as args[0] of the node only
    when call.args[1] exists and is a numeric literal. -/
def binary_amount_args (args : List JsExpr) : List ℚ :=
  match args.get? 1 with
  | some (JsExpr.num v) => [v]
  | _ => []

/-- The Rust binary branch tests `call.args.get(0)` for an `Expr::Call`;
    this extracts that first-argument call expression when present. -/
def first_call_arg : List JsExpr → Option JsExpr
  | JsExpr.call c a :: _ => some (JsExpr.call c a)
  | _ => none

lemma first_call_arg_sizeOf (args : List JsExpr) (e : JsExpr)
    (h : first_call_arg args = some e) : sizeOf e < sizeOf args := by
  match args with
  | [] => simp [first_call_arg] at h
  | JsExpr.call c a :: rest =>
      simp only [first_call_arg] at h
      cases h
      simp_arith
  | JsExpr.member o p :: rest => simp [first_call_arg] at h
  | JsExpr.ident n :: rest => simp [first_call_arg] at h
  | JsExpr.num v :: rest => simp [first_call_arg] at h
  | JsExpr.other :: rest => simp [first_call_arg] at h

def classify_source (name : String) : Option SourceType :=
  if name = "osc" then some SourceType.osc
  else if name = "noise" then some SourceType.noise
  else if name = "solid" then some SourceType.solid
  else if name = "gradient" then some SourceType.gradient
  else if name = "shape" then some SourceType.shape
  else if name = "voronoi" then some SourceType.voronoi
  else if name = "src" then some SourceType.src
  else none

def classify_spatial (name : String) : Option SpatialType :=
  if name = "scale" then some SpatialType.scale
  else if name = "kaleid" then some SpatialType.kaleid
  else if name = "rotate" then some SpatialType.rotate
  else if name = "scrollX" then some SpatialType.scrollX
  else if name = "scrollY" then some SpatialType.scrollY
  else if name = "scroll" then some SpatialType.scroll
  else if name = "repeat" then some SpatialType.repeat
  else if name = "repeatX" then some SpatialType.repeatX
  else if name = "repeatY" then some SpatialType.repeatY
  else if name = "pixelate" then some SpatialType.pixelate
  else none

def classify_unary_color (name : String) : Option UnaryColorType :=
  if name = "invert" then some UnaryColorType.invert
  else if name = "color" then some UnaryColorType.color
  else if name = "brightness" then some UnaryColorType.brightness
  else if name = "contrast" then some UnaryColorType.contrast
  else if name = "saturate" then some UnaryColorType.saturate
  else if name = "posterize" then some UnaryColorType.posterize
  else if name = "thresh" then some UnaryColorType.thresh
  else if name = "hue" then some UnaryColorType.hue
  else if name = "colorama" then some UnaryColorType.colorama
  else if name = "luma" then some UnaryColorType.luma
  else if name = "shift" then some UnaryColorType.shift
  else none

def classify_binary (name : String) : Option BinaryType :=
  if name = "add" then some BinaryType.add
  else if name = "sub" then some BinaryType.sub
  else if name = "mult" then some BinaryType.mult
  else if name = "blend" then some BinaryType.blend
  else if name = "diff" then some BinaryType.diff
  else if name = "layer" then some BinaryType.layer
  else if name = "mask" then some BinaryType.mask
  else if name = "modulate" then some BinaryType.modulate
  else if name = "modulateScale" then some BinaryType.modulateScale
  else none

set_option linter.unusedVariables false in
/-- IRBuilder::build_expr / build_call / build_member, fused exactly as the
    Rust dispatch: a member expression recurses into its object, a call with
    ident callee is looked up in the source table, a call with ident-member
    callee builds the receiver and then checks out / spatial / binary /
    unary tables in that order and passes unknown methods through; every
    other shape yields None. -/
def buildExpr : JsExpr → List IRKind → Option (Nat × List IRKind)
  | JsExpr.member obj _, nodes => buildExpr obj nodes
  | JsExpr.call (JsExpr.ident name) args, nodes =>
      (match classify_source name with
       | some src_ty => some (push nodes (IRKind.source src_ty (extract_f32_args args)))
       | none => none)
  | JsExpr.call (JsExpr.member obj (some methodName)) args, nodes =>
      (match buildExpr obj nodes with
       | none => none
       | some (baseNode, nodes1) =>
         if methodName = "out" then
           some (push nodes1 (IRKind.output baseNode (out_index args)))
         else
           match classify_spatial methodName with
           | some spatial_ty =>
               some (push nodes1 (IRKind.spatial spatial_ty (extract_f32_args args) baseNode))
           | none =>
             match classify_binary methodName with
             | some bin_ty =>
               (match hfc : first_call_arg args with
                | some rcall =>
                  (match buildExpr rcall nodes1 with
                   | none => none
                   | some (rightNode, nodes2) =>
                     some (push nodes2
                       (IRKind.binary bin_ty (binary_amount_args args) baseNode rightNode)))
                | none => some (baseNode, nodes1))
             | none =>
               match classify_unary_color methodName with
               | some unary_ty =>
                   some (push nodes1
                     (IRKind.unaryColor unary_ty (extract_f32_args args) baseNode))
               | none => some (baseNode, nodes1))
  | JsExpr.call (JsExpr.member _ none) _, _ => none
  | JsExpr.call (JsExpr.call _ _) _, _ => none
  | JsExpr.call (JsExpr.num _) _, _ => none
  | JsExpr.call JsExpr.other _, _ => none
  | JsExpr.ident _, _ => none
  | JsExpr.num _, _ => none
  | JsExpr.other, _ => none
termination_by e _ => sizeOf e
decreasing_by
  all_goals simp_wf
  all_goals first
    | omega
    | (have hsz := first_call_arg_sizeOf args rcall hfc; omega)

/-- IRBuilder::build_script: build the first expression statement. -/
def buildScript : List JsStmt → Option (Nat × List IRKind)
  | [] => none
  | JsStmt.exprStmt e :: _ => buildExpr e []
  | JsStmt.other :: rest => buildScript rest

/-! ## Source emitters (backend/hydra_sources.rs).
    All sources read the coordinate installed as `_st`; here it is the
    explicit `st` argument.  `time` is Globals.data.x. -/

/-- get_arg_or_default on the numeric-literal argument list fabricated by
    call_args_wrapper: position `index` or the default. -/
def get_arg_or_default (args : List ℚ) (index : Nat) (dflt : ℚ) : ℚ :=
  (args.get? index).getD dflt

/-- compute_osc_channel: sin((st.x + time*sync + offset*(mult/60)) * freq) * 0.5 + 0.5. -/
def compute_osc_channel (P : Prims) (x freq sync offset time offset_mult : ℚ) : ℚ :=
  P.rsin ((x + time * sync + offset * (offset_mult / 60)) * freq) * 0.5 + 0.5

/-- emit_osc: osc(frequency=60, sync=0.1, offset=0), per-channel offset
    multipliers (-2, 0, 1), alpha 1. -/
def emit_osc (P : Prims) (time : ℚ) (args : List ℚ) (st : Vec2) : Option Color :=
  let freq := get_arg_or_default args 0 60
  let sync := get_arg_or_default args 1 0.1
  let offset := get_arg_or_default args 2 0
  some ⟨compute_osc_channel P st.x freq sync offset time (-2),
        compute_osc_channel P st.x freq sync offset time 0,
        compute_osc_channel P st.x freq sync offset time 1, 1⟩

/-- emit_solid: solid(r=0, g=0, b=0, a=1). -/
def emit_solid (args : List ℚ) : Option Color :=
  some ⟨get_arg_or_default args 0 0, get_arg_or_default args 1 0,
        get_arg_or_default args 2 0, get_arg_or_default args 3 1⟩

/-- emit_gradient: vec4(st.x, st.y, sin(time), 1). -/
def emit_gradient (P : Prims) (time : ℚ) (st : Vec2) : Option Color :=
  some ⟨st.x, st.y, P.rsin time, 1⟩

/-- The lattice-corner hash shared by noise and voronoi:
    fract(sin(hx*127.1 + hy*311.7) * 43758.5453). -/
def noise_hash2 (P : Prims) (hx hy : ℚ) : ℚ :=
  fract (P.rsin (hx * 127.1 + hy * 311.7) * 43758.5453)

/-- One value-noise octave at already-scaled lattice coordinates. -/
def noise_octave (P : Prims) (x_t y_t : ℚ) : ℚ :=
  let ix := rfloor x_t
  let iy := rfloor y_t
  let fx := fract x_t
  let fy := fract y_t
  let r00 := noise_hash2 P ix iy
  let r10 := noise_hash2 P (ix + 1) iy
  let r01 := noise_hash2 P ix (iy + 1)
  let r11 := noise_hash2 P (ix + 1) (iy + 1)
  let ux := fx * fx * (3 - 2 * fx)
  let uy := fy * fy * (3 - 2 * fy)
  mix (mix r00 r10 ux) (mix r01 r11 ux) uy

/-- emit_noise: noise(frequency=10, speed=0, octaves=1), 4 unrolled octaves
    masked by step(i+0.5, octaves), amplitudes 1, 0.5, 0.25, 0.125,
    normalised by the masked amplitude sum (1 when the sum is below 1e-6). -/
def emit_noise (P : Prims) (time : ℚ) (args : List ℚ) (st : Vec2) : Option Color :=
  let freq := get_arg_or_default args 0 10
  let speed := get_arg_or_default args 1 0
  let octaves := get_arg_or_default args 2 1
  let t_scaled := time * speed
  let v0 := noise_octave P (st.x * (freq * 1) + t_scaled) (st.y * (freq * 1))
  let a0 := 1 * step (0 + 0.5) octaves
  let v1 := noise_octave P (st.x * (freq * 2) + t_scaled) (st.y * (freq * 2))
  let a1 := 0.5 * step (1 + 0.5) octaves
  let v2 := noise_octave P (st.x * (freq * 4) + t_scaled) (st.y * (freq * 4))
  let a2 := (0.5 * 0.5) * step (2 + 0.5) octaves
  let v3 := noise_octave P (st.x * (freq * 8) + t_scaled) (st.y * (freq * 8))
  let a3 := (0.5 * 0.5 * 0.5) * step (3 + 0.5) octaves
  let sum_val := 0 + v0 * a0 + v1 * a1 + v2 * a2 + v3 * a3
  let sum_amp := 0 + a0 + a1 + a2 + a3
  let safe_amp := if sum_amp < 0.000001 then 1 else sum_amp
  some ⟨sum_val / safe_amp, sum_val / safe_amp, sum_val / safe_amp, 1⟩

/-- emit_shape: shape(sides=3, radius=0.5, smoothing=0.01), sides clamped
    to at least 3, polygon boundary radius*cos(pi/sides)/max(|cos(local)|,1e-4),
    mask = smoothstep(0, smoothing, boundary - r). -/
def emit_shape (P : Prims) (args : List ℚ) (st : Vec2) : Option Color :=
  let sides := get_arg_or_default args 0 3
  let radius := get_arg_or_default args 1 0.5
  let smoothing := get_arg_or_default args 2 0.01
  let x_c := st.x - 0.5
  let y_c := st.y - 0.5
  let r_len := length2 P x_c y_c
  let angle := P.ratan2 y_c x_c
  let sides_min3 := if sides < 3 then 3 else sides
  let seg := 6.28318530718 / sides_min3
  let half_seg := seg * 0.5
  let angle_mod := rmod (angle + half_seg) seg
  let localAngle := angle_mod - half_seg
  let cos_pi_sides := P.rcos (3.14159265359 / sides_min3)
  let denom := rmax (rabs (P.rcos localAngle)) 0.0001
  let boundary := radius * cos_pi_sides / denom
  let mask := smoothstep 0 smoothing (boundary - r_len)
  some ⟨mask, mask, mask, mask⟩

/-- Squared distance to one voronoi neighbor cell's jittered feature point. -/
def voronoi_cell_dist2 (P : Prims) (ix iy fx fy jitter : ℚ) (dydx : ℤ × ℤ) : ℚ :=
  let cell_x := ix + (dydx.2 : ℚ)
  let cell_y := iy + (dydx.1 : ℚ)
  let h1 := noise_hash2 P cell_x cell_y
  let h2 := noise_hash2 P cell_x (cell_y + 1)
  let px := ((dydx.2 : ℚ) + (h1 - 0.5) * jitter) - fx
  let py := ((dydx.1 : ℚ) + (h2 - 0.5) * jitter) - fy
  px * px + py * py

/-- emit_voronoi: voronoi(frequency=5, jitter=0.8); min squared distance over
    the 3x3 neighborhood (dy outer, dx inner), emits 1 - sqrt(dmin). -/
def emit_voronoi (P : Prims) (args : List ℚ) (st : Vec2) : Option Color :=
  let freq := get_arg_or_default args 0 5
  let jitter := get_arg_or_default args 1 0.8
  let sx := st.x * freq
  let sy := st.y * freq
  let ix := rfloor sx
  let iy := rfloor sy
  let fx := fract sx
  let fy := fract sy
  let dmin := List.foldl
    (fun d c => rmin d (voronoi_cell_dist2 P ix iy fx fy jitter c)) 9999
    [(-1, -1), (-1, 0), (-1, 1), (0, -1), (0, 0), (0, 1), (1, -1), (1, 0), (1, 1)]
  let val := 1 - P.rsqrt dmin
  some ⟨val, val, val, 1⟩

/-- The `o{i}` entries of the emitter's `variables` map. -/
def Buffers : Type := Nat → Option Color

/-- variables.insert for an output buffer key. -/
def updateBuf (bufs : Buffers) (index : Nat) (c : Color) : Buffers :=
  fun j => if j = index then some c else bufs j

/-- SpirvEmitter::emit_source: dispatch on the source type; Src reads
    buffer o{args[0] as u32} and falls back to emit_solid applied to the
    same argument list when the buffer is undefined. -/
def emit_source (P : Prims) (time : ℚ) (ty : SourceType) (args : List ℚ)
    (st : Vec2) (bufs : Buffers) : Option Color :=
  match ty with
  | SourceType.osc => emit_osc P time args st
  | SourceType.noise => emit_noise P time args st
  | SourceType.solid => emit_solid args
  | SourceType.gradient => emit_gradient P time st
  | SourceType.shape => emit_shape P args st
  | SourceType.voronoi => emit_voronoi P args st
  | SourceType.src =>
      match bufs (numToU32 ((args.get? 0).getD 0)) with
      | some val => some val
      | none => emit_solid args

/-! ## Spatial coordinate transforms (backend/spirv_visitor.rs) -/

/-- rotate_coord: angle + time*speed, rotate about (0.5, 0.5). -/
def rotate_coord (P : Prims) (time : ℚ) (coord : Vec2) (angle speed : ℚ) : Vec2 :=
  let total := angle + time * speed
  let x_c := coord.x - 0.5
  let y_c := coord.y - 0.5
  ⟨x_c * P.rcos total - y_c * P.rsin total + 0.5,
   x_c * P.rsin total + y_c * P.rcos total + 0.5⟩

/-- scroll_coord's shift_axis: add optional offset and time*speed, then
    subtract the floor (a fract, applied even when both are absent). -/
def shift_axis (time v : ℚ) (amt spd : Option ℚ) : ℚ :=
  let o1 := match amt with
    | some amtv => v + amtv
    | none => v
  let o2 := match spd with
    | some s => o1 + time * s
    | none => o1
  o2 - rfloor o2

/-- scroll_coord applied per axis. -/
def scroll_coord (time : ℚ) (coord : Vec2) (ax ay sx sy : Option ℚ) : Vec2 :=
  ⟨shift_axis time coord.x ax sx, shift_axis time coord.y ay sy⟩

/-- scale_coord: center, multiply by 1/max(s, 1e-6), recenter. -/
def scale_coord (coord : Vec2) (sx sy : ℚ) : Vec2 :=
  ⟨(coord.x - 0.5) * (1 / rmax sx 0.000001) + 0.5,
   (coord.y - 0.5) * (1 / rmax sy 0.000001) + 0.5⟩

/-- kaleid_coord: fold the polar angle into a sector (sides clamped ≥ 1). -/
def kaleid_coord (P : Prims) (coord : Vec2) (sides : ℚ) : Vec2 :=
  let x_c := coord.x - 0.5
  let y_c := coord.y - 0.5
  let r := length2 P x_c y_c
  let angle := P.ratan2 y_c x_c
  let sector := 6.28318530718 / rmax sides 1
  let sector_half := sector * 0.5
  let fold := rabs (rmod (rmod angle 6.28318530718) sector - sector_half)
  ⟨P.rcos fold * r + 0.5, P.rsin fold * r + 0.5⟩

/-- repeat_coord: (fract(x * max(rx, 1e-4)), fract(y * max(ry, 1e-4))). -/
def repeat_coord (coord : Vec2) (rx ry : ℚ) : Vec2 :=
  ⟨fract (coord.x * rmax rx 0.0001), fract (coord.y * rmax ry 0.0001)⟩

/-- pixelate_coord: snap to a max(s,1)-cell grid plus a half-cell offset. -/
def pixelate_coord (coord : Vec2) (sx sy : ℚ) : Vec2 :=
  let sx_c := rmax sx 1
  let sy_c := rmax sy 1
  ⟨rfloor (coord.x * sx_c) / sx_c + 0.5 / sx_c,
   rfloor (coord.y * sy_c) / sy_c + 0.5 / sy_c⟩

/-- SpirvEmitter::apply_spatial_transform with the per-kind defaults. -/
def apply_spatial_transform (P : Prims) (time : ℚ) (ty : SpatialType)
    (args : List ℚ) (coord : Vec2) : Vec2 :=
  match ty with
  | SpatialType.scale =>
      let sx := (args.get? 0).getD 1
      scale_coord coord sx ((args.get? 1).getD sx)
  | SpatialType.kaleid => kaleid_coord P coord ((args.get? 0).getD 4)
  | SpatialType.rotate =>
      rotate_coord P time coord ((args.get? 0).getD 0) ((args.get? 1).getD 0)
  | SpatialType.scrollX =>
      scroll_coord time coord (some ((args.get? 0).getD 0)) none
        (some ((args.get? 1).getD 0)) none
  | SpatialType.scrollY =>
      scroll_coord time coord none (some ((args.get? 0).getD 0)) none
        (some ((args.get? 1).getD 0))
  | SpatialType.scroll =>
      scroll_coord time coord (some ((args.get? 0).getD 0))
        (some ((args.get? 1).getD 0)) (some ((args.get? 2).getD 0))
        (some ((args.get? 3).getD 0))
  | SpatialType.repeat =>
      let rx := (args.get? 0).getD 3
      repeat_coord coord rx ((args.get? 1).getD rx)
  | SpatialType.repeatX => repeat_coord coord ((args.get? 0).getD 3) 1
  | SpatialType.repeatY => repeat_coord coord 1 ((args.get? 0).getD 3)
  | SpatialType.pixelate =>
      let sx := (args.get? 0).getD 10
      pixelate_coord coord sx ((args.get? 1).getD sx)

/-- displace_coord_from_color (the Modulate coordinate derivation):
    clamp01(coord + ((r,g) - 0.5) * amount). -/
def displace_coord_from_color (coord : Vec2) (c : Color) (amount : ℚ) : Vec2 :=
  ⟨clamp01 (coord.x + (c.r - 0.5) * amount),
   clamp01 (coord.y + (c.g - 0.5) * amount)⟩

/-- scale_coord_from_color (the ModulateScale coordinate derivation):
    factor = 1 + luma(c)*amount; centered coord times 1/factor, recentered. -/
def scale_coord_from_color (coord : Vec2) (c : Color) (amount : ℚ) : Vec2 :=
  let factor := 1 + luma c * amount
  ⟨(coord.x - 0.5) * (1 / factor) + 0.5,
   (coord.y - 0.5) * (1 / factor) + 0.5⟩

/-! ## Unary color ops (backend/hydra_effects.rs) -/

/-- hue_rotate: RGB → YIQ, rotate (I,Q) by angle, YIQ → RGB, alpha kept. -/
def hue_rotate (P : Prims) (c : Color) (angle : ℚ) : Color :=
  let y := c.r * 0.299 + c.g * 0.587 + c.b * 0.114
  let i := c.r * 0.596 + c.g * (-0.275) + c.b * (-0.321)
  let q := c.r * 0.212 + c.g * (-0.523) + c.b * 0.311
  let i2 := i * P.rcos angle - q * P.rsin angle
  let q2 := i * P.rsin angle + q * P.rcos angle
  ⟨y + i2 * 0.956 + q2 * 0.621,
   y + i2 * (-0.272) + q2 * (-0.647),
   y + i2 * (-1.105) + q2 * 1.702, c.a⟩

/-- contrast_amount: (ch - 0.5)*amount + 0.5 on RGB. -/
def contrast_amount (c : Color) (amount : ℚ) : Color :=
  apply_rgb c fun ch => (ch - 0.5) * amount + 0.5

/-- brightness_amount: RGB * amount. -/
def brightness_amount (c : Color) (amount : ℚ) : Color :=
  ⟨c.r * amount, c.g * amount, c.b * amount, c.a⟩

/-- emit_invert: mix(ch, 1-ch, amount) on RGB (amount default 1). -/
def emit_invert (c : Color) (args : List ℚ) : Option Color :=
  let amount := get_arg_or_default args 0 1
  some ⟨mix c.r (1 - c.r) amount, mix c.g (1 - c.g) amount,
        mix c.b (1 - c.b) amount, c.a⟩

/-- emit_color: per-channel multiply, alpha included (defaults 1,1,1,1). -/
def emit_color (c : Color) (args : List ℚ) : Option Color :=
  some ⟨c.r * get_arg_or_default args 0 1, c.g * get_arg_or_default args 1 1,
        c.b * get_arg_or_default args 2 1, c.a * get_arg_or_default args 3 1⟩

def emit_brightness (c : Color) (args : List ℚ) : Option Color :=
  some (brightness_amount c (get_arg_or_default args 0 1))

def emit_contrast (c : Color) (args : List ℚ) : Option Color :=
  some (contrast_amount c (get_arg_or_default args 0 1))

/-- emit_saturate: mix(luma, ch, amount) on RGB (amount default 1). -/
def emit_saturate (c : Color) (args : List ℚ) : Option Color :=
  let amt := get_arg_or_default args 0 1
  some ⟨mix (luma c) c.r amt, mix (luma c) c.g amt, mix (luma c) c.b amt, c.a⟩

/-- emit_posterize: safe_pow to linear, quantize, safe_pow back (levels=4,
    gamma=0.6). -/
def emit_posterize (P : Prims) (c : Color) (args : List ℚ) : Option Color :=
  let levels := get_arg_or_default args 0 4
  let gamma := get_arg_or_default args 1 0.6
  let linearized := apply_rgb c fun ch => safe_pow P ch (1 / gamma)
  let quantized := apply_rgb linearized fun ch => quantize ch levels
  some (apply_rgb quantized fun ch => safe_pow P ch gamma)

/-- emit_thresh: mix(ch, ch < t ? 0 : 1, amount) on RGB (t=0.5, amount=1). -/
def emit_thresh (c : Color) (args : List ℚ) : Option Color :=
  let threshold := get_arg_or_default args 0 0.5
  let amount := get_arg_or_default args 1 1
  let th := fun ch => mix ch (if ch < threshold then 0 else 1) amount
  some ⟨th c.r, th c.g, th c.b, c.a⟩

def emit_hue (P : Prims) (c : Color) (args : List ℚ) : Option Color :=
  some (hue_rotate P c (get_arg_or_default args 0 0))

/-- emit_colorama: hue_rotate by time * speed (speed default 0.005). -/
def emit_colorama (P : Prims) (time : ℚ) (c : Color) (args : List ℚ) : Option Color :=
  some (hue_rotate P c (time * get_arg_or_default args 0 0.005))

/-- emit_luma_effect: vec4(l, l, l, alpha). -/
def emit_luma_effect (c : Color) : Option Color :=
  some ⟨luma c, luma c, luma c, c.a⟩

/-- emit_shift: per-channel add (alpha included) then clamp01 (defaults 0). -/
def emit_shift (c : Color) (args : List ℚ) : Option Color :=
  some ⟨clamp01 (c.r + get_arg_or_default args 0 0),
        clamp01 (c.g + get_arg_or_default args 1 0),
        clamp01 (c.b + get_arg_or_default args 2 0),
        clamp01 (c.a + get_arg_or_default args 3 0)⟩

/-- SpirvEmitter::emit_unary_color dispatch. -/
def emit_unary_color (P : Prims) (time : ℚ) (ty : UnaryColorType)
    (args : List ℚ) (input : Color) : Option Color :=
  match ty with
  | UnaryColorType.invert => emit_invert input args
  | UnaryColorType.color => emit_color input args
  | UnaryColorType.brightness => emit_brightness input args
  | UnaryColorType.contrast => emit_contrast input args
  | UnaryColorType.saturate => emit_saturate input args
  | UnaryColorType.posterize => emit_posterize P input args
  | UnaryColorType.thresh => emit_thresh input args
  | UnaryColorType.hue => emit_hue P input args
  | UnaryColorType.colorama => emit_colorama P time input args
  | UnaryColorType.luma => emit_luma_effect input
  | UnaryColorType.shift => emit_shift input args

/-! ## Binary color combiners (backend/hydra_effects.rs) -/

/-- binary_per_channel on all four channels. -/
def binary_per_channel (a b : Color) (f : ℚ → ℚ → ℚ) : Color :=
  ⟨f a.r b.r, f a.g b.g, f a.b b.b, f a.a b.a⟩

/-- binary_mix: blend per channel with f, then mix(a, blended, amount). -/
def binary_mix (a b : Color) (amount : ℚ) (f : ℚ → ℚ → ℚ) : Color :=
  let blended := binary_per_channel a b f
  ⟨mix a.r blended.r amount, mix a.g blended.g amount,
   mix a.b blended.b amount, mix a.a blended.a amount⟩

def binary_add (a b : Color) (amount : ℚ) : Color :=
  binary_mix a b amount fun x y => x + y

def binary_sub (a b : Color) (amount : ℚ) : Color :=
  binary_mix a b amount fun x y => x - y

def binary_mult (a b : Color) (amount : ℚ) : Color :=
  binary_mix a b amount fun x y => x * y

/-- binary_diff: per channel |x - y| implemented as sqrt((x-y)^2). -/
def binary_diff (P : Prims) (a b : Color) : Color :=
  binary_per_channel a b fun x y => P.rsqrt ((x - y) * (x - y))

def binary_blend (a b : Color) (amount : ℚ) : Color :=
  binary_mix a b amount fun _ y => y

/-- binary_layer: mix towards b with t = b.a. -/
def binary_layer (a b : Color) : Color :=
  binary_mix a b b.a fun _ y => y

/-- binary_mask: multiply all of a's channels by luma(b). -/
def binary_mask (a b : Color) : Color :=
  ⟨a.r * luma b, a.g * luma b, a.b * luma b, a.a * luma b⟩

/-- binary_modulate (the legacy color-only modulate used on the standard
    path): a's RGB times (1 + luma(b)*amount), alpha from a. -/
def binary_modulate (a b : Color) (amount : ℚ) : Color :=
  let factor := 1 + luma b * amount
  ⟨a.r * factor, a.g * factor, a.b * factor, a.a⟩

/-- SpirvEmitter::emit_standard_binary: amount defaults to 1 here. -/
def emit_standard_binary (P : Prims) (ty : BinaryType) (args : List ℚ)
    (a b : Color) : Option Color :=
  let amount := (args.get? 0).getD 1
  some (match ty with
    | BinaryType.add => binary_add a b amount
    | BinaryType.sub => binary_sub a b amount
    | BinaryType.mult => binary_mult a b amount
    | BinaryType.blend => binary_blend a b amount
    | BinaryType.diff => binary_diff P a b
    | BinaryType.layer => binary_layer a b
    | BinaryType.mask => binary_mask a b
    | BinaryType.modulate => binary_modulate a b amount
    | BinaryType.modulateScale => binary_modulate a b amount)

/-! ## The IR evaluator (SpirvEmitter::emit_ir_node).
    Fuel makes the recursion on arbitrary node ids total; on the graphs the
    builder produces, any fuel above the root id suffices. -/

def emit_ir_node (P : Prims) (time : ℚ) (ir : List IRKind) :
    Nat → Nat → Vec2 → Buffers → Option (Color × Buffers)
  | 0, _, _, _ => none
  | fuel + 1, id, coord, bufs =>
    match ir.get? id with
    | none => none
    | some (IRKind.source ty args) =>
        (match emit_source P time ty args coord bufs with
         | none => none
         | some c => some (c, bufs))
    | some (IRKind.spatial ty args child) =>
        emit_ir_node P time ir fuel child
          (apply_spatial_transform P time ty args coord) bufs
    | some (IRKind.unaryColor ty args child) =>
        (match emit_ir_node P time ir fuel child coord bufs with
         | none => none
         | some (base, bufs1) =>
           match emit_unary_color P time ty args base with
           | none => none
           | some c => some (c, bufs1))
    | some (IRKind.binary ty args lhs rhs) =>
        (match ty with
         | BinaryType.modulate | BinaryType.modulateScale =>
           (match emit_ir_node P time ir fuel rhs coord bufs with
            | none => none
            | some (modColor, bufs1) =>
              let amount := (args.get? 0).getD 0.5
              let newCoord :=
                if ty = BinaryType.modulateScale then
                  scale_coord_from_color coord modColor amount
                else displace_coord_from_color coord modColor amount
              emit_ir_node P time ir fuel lhs newCoord bufs1)
         | _ =>
           (match emit_ir_node P time ir fuel lhs coord bufs with
            | none => none
            | some (aCol, bufs1) =>
              match emit_ir_node P time ir fuel rhs coord bufs1 with
              | none => none
              | some (bCol, bufs2) =>
                match emit_standard_binary P ty args aCol bCol with
                | none => none
                | some c => some (c, bufs2)))
    | some (IRKind.output child index) =>
        (match emit_ir_node P time ir fuel child coord bufs with
         | none => none
         | some (c, bufs1) => some (c, updateBuf bufs1 index c))

/-! ## Entry assembly post-processing (emit_pipeline lines 42-45) -/

/-- apply_auto_exposure: gain = min(1/(luma+0.02), 6); RGB * gain, alpha kept. -/
def apply_auto_exposure (c : Color) : Color :=
  let gain := rmin (1 / (luma c + 0.02)) 6
  ⟨c.r * gain, c.g * gain, c.b * gain, c.a⟩

/-- tone_map_aces per RGB channel: (x*(2.51x+0.03)) / (x*(2.43x+0.59)+0.14),
    alpha kept. -/
def tone_map_aces (c : Color) : Color :=
  let m := fun ch : ℚ => (ch * (2.51 * ch + 0.03)) / (ch * (2.43 * ch + 0.59) + 0.14)
  ⟨m c.r, m c.g, m c.b, c.a⟩

/-- clamp_vec4 (backend/spirv_helpers.rs): clamps the R, G and B components
    with FMax/FMin and reassembles the vector with the extracted alpha
    component, which is NOT passed through clamp_comp. -/
def clamp_vec4 (c : Color) : Color :=
  ⟨clamp01 c.r, clamp01 c.g, clamp01 c.b, c.a⟩

/-- The post-processing emit_pipeline applies to the root color before
    storing FragColor: auto exposure, then ACES, then clamp_vec4. -/
def final_frag_color (c : Color) : Color :=
  clamp_vec4 (tone_map_aces (apply_auto_exposure c))

/-! ## Well-formedness of IR graphs: every node references only
    strictly smaller ids (the claimed builder invariant). -/

/-- All child references of a node are strictly below `i`. -/
def kidsLT : IRKind → Nat → Bool
  | IRKind.source _ _, _ => true
  | IRKind.spatial _ _ child, i => decide (child < i)
  | IRKind.unaryColor _ _ child, i => decide (child < i)
  | IRKind.binary _ _ lhs rhs, i => decide (lhs < i) && decide (rhs < i)
  | IRKind.output child _, i => decide (child < i)

/-- Every node of the list, whose first element sits at index `n`,
    references only ids below its own index. -/
def wfFrom : Nat → List IRKind → Bool
  | _, [] => true
  | n, k :: rest => kidsLT k n && wfFrom (n + 1) rest

def wfIR (ir : List IRKind) : Bool := wfFrom 0 ir

lemma wfFrom_append (n : Nat) (xs ys : List IRKind) :
    wfFrom n (xs ++ ys) = (wfFrom n xs && wfFrom (n + xs.length) ys) := by
  induction xs generalizing n with
  | nil => simp [wfFrom]
  | cons hd tl ih =>
      have h : n + 1 + tl.length = n + (tl.length + 1) := by omega
      simp only [List.cons_append, wfFrom, List.length_cons, List.append_eq]
      rw [ih (n + 1), h, Bool.and_assoc]

lemma wfFrom_get? (ir : List IRKind) :
    ∀ n i k, wfFrom n ir = true → ir.get? i = some k → kidsLT k (n + i) = true := by
  induction ir with
  | nil => intro n i k _ hget; simp [List.get?] at hget
  | cons hd tl ih =>
      intro n i k hwf hget
      rw [wfFrom, Bool.and_eq_true] at hwf
      cases i with
      | zero =>
          simp only [List.get?] at hget
          cases hget
          simpa using hwf.1
      | succ j =>
          simp only [List.get?] at hget
          have h := ih (n + 1) j k hwf.2 hget
          have harith : n + 1 + j = n + (j + 1) := by omega
          rwa [harith] at h

lemma wfIR_get? (ir : List IRKind) (i : Nat) (k : IRKind)
    (hwf : wfIR ir = true) (hget : ir.get? i = some k) : kidsLT k i = true := by
  have h := wfFrom_get? ir 0 i k hwf hget
  simpa using h

lemma get?_append_left {α : Type} (l₁ l₂ : List α) (n : Nat) (hn : n < l₁.length) :
    (l₁ ++ l₂).get? n = l₁.get? n := by
  induction l₁ generalizing n with
  | nil => simp at hn
  | cons hd tl ih =>
      cases n with
      | zero => rfl
      | succ j =>
          simp only [List.cons_append, List.get?]
          exact ih j (by simpa using Nat.lt_of_succ_lt_succ hn)

lemma get?_length_concat {α : Type} (l : List α) (x : α) :
    (l ++ [x]).get? l.length = some x := by
  induction l with
  | nil => rfl
  | cons hd tl ih => exact ih

lemma wfIR_concat (nodes : List IRKind) (k : IRKind) (hwf : wfIR nodes = true)
    (hk : kidsLT k nodes.length = true) : wfIR (nodes ++ [k]) = true := by
  unfold wfIR at hwf ⊢
  rw [wfFrom_append]
  simp only [hwf, Bool.true_and, Nat.zero_add, wfFrom, hk, Bool.and_self]

/-- Evaluation of a node inside the original graph does not depend on a
    node appended past the end (the evaluator only follows strictly
    decreasing ids on well-formed graphs). -/
lemma emit_ir_node_append_congr (P : Prims) (time : ℚ) (ir : List IRKind)
    (x y : IRKind) (hwf : wfIR ir = true) :
    ∀ fuel id coord bufs, id < ir.length →
      emit_ir_node P time (ir ++ [x]) fuel id coord bufs =
      emit_ir_node P time (ir ++ [y]) fuel id coord bufs := by
  intro fuel
  induction fuel with
  | zero => intro id coord bufs _; rfl
  | succ n ih =>
      intro id coord bufs hid
      simp only [emit_ir_node]
      rw [get?_append_left ir [x] id hid, get?_append_left ir [y] id hid]
      cases hnode : ir.get? id with
      | none => rfl
      | some k =>
          have hkids := wfIR_get? ir id k hwf hnode
          cases k with
          | source ty args => rfl
          | spatial ty args child =>
              have hc : child < id := of_decide_eq_true (by simpa [kidsLT] using hkids)
              exact ih child _ bufs (lt_trans hc hid)
          | unaryColor ty args child =>
              have hc : child < id := of_decide_eq_true (by simpa [kidsLT] using hkids)
              simp only [ih child coord bufs (lt_trans hc hid)]
          | binary ty args lhs rhs =>
              simp only [kidsLT, Bool.and_eq_true] at hkids
              have hl : lhs < id := of_decide_eq_true hkids.1
              have hr : rhs < id := of_decide_eq_true hkids.2
              have ihl : ∀ c b, emit_ir_node P time (ir ++ [x]) n lhs c b =
                  emit_ir_node P time (ir ++ [y]) n lhs c b :=
                fun c b => ih lhs c b (lt_trans hl hid)
              have ihr : ∀ c b, emit_ir_node P time (ir ++ [x]) n rhs c b =
                  emit_ir_node P time (ir ++ [y]) n rhs c b :=
                fun c b => ih rhs c b (lt_trans hr hid)
              cases ty <;> simp only [ihl, ihr]
          | output child index =>
              have hc : child < id := of_decide_eq_true (by simpa [kidsLT] using hkids)
              simp only [ih child coord bufs (lt_trans hc hid)]

/-- The builder only grows the arena, returns an id inside it, and
    preserves the children-strictly-smaller well-formedness invariant. -/
lemma buildExpr_invariant : ∀ (N : Nat) (e : JsExpr), sizeOf e ≤ N →
    ∀ nodes id nodes', buildExpr e nodes = some (id, nodes') →
      nodes.length ≤ nodes'.length ∧ id < nodes'.length ∧
      (wfIR nodes = true → wfIR nodes' = true) := by
  intro N
  induction N with
  | zero =>
      intro e he
      exfalso
      cases e <;> simp_arith at he
  | succ n ihN =>
      intro e he nodes id nodes' h
      cases e with
      | ident name => simp only [buildExpr] at h; cases h
      | num v => simp only [buildExpr] at h; cases h
      | other => simp only [buildExpr] at h; cases h
      | member obj prop =>
          simp only [buildExpr] at h
          have hsz : sizeOf obj ≤ n := by
            cases prop <;> simp_arith [JsExpr.member.sizeOf_spec] at he <;> omega
          exact ihN obj hsz nodes id nodes' h
      | call callee args =>
          cases callee with
          | call c a => simp only [buildExpr] at h; cases h
          | num v => simp only [buildExpr] at h; cases h
          | other => simp only [buildExpr] at h; cases h
          | ident name =>
              simp only [buildExpr] at h
              cases hcs : classify_source name with
              | none => rw [hcs] at h; cases h
              | some src_ty =>
                  rw [hcs] at h
                  injection h with h'
                  injection h' with h1 h2
                  subst h1; subst h2
                  refine ⟨by simp [push], by simp [push], fun hw => ?_⟩
                  exact wfIR_concat nodes _ hw rfl
          | member obj prop =>
              cases prop with
              | none => simp only [buildExpr] at h; cases h
              | some m =>
                  simp only [buildExpr] at h
                  have hszo : sizeOf obj ≤ n := by
                    simp_arith [JsExpr.call.sizeOf_spec, JsExpr.member.sizeOf_spec] at he
                    omega
                  cases hobj : buildExpr obj nodes with
                  | none => rw [hobj] at h; cases h
                  | some p =>
                      obtain ⟨base, nodes1⟩ := p
                      rw [hobj] at h
                      simp only at h
                      obtain ⟨hlen1, hbase1, hwf1⟩ := ihN obj hszo nodes base nodes1 hobj
                      by_cases hout : m = "out"
                      · rw [if_pos hout] at h
                        injection h with h'
                        injection h' with h1 h2
                        subst h1; subst h2
                        refine ⟨by simp [push]; omega, by simp [push], fun hw => ?_⟩
                        exact wfIR_concat nodes1 _ (hwf1 hw)
                          (by simp [kidsLT]; exact hbase1)
                      · rw [if_neg hout] at h
                        cases hsp : classify_spatial m with
                        | some sty =>
                            rw [hsp] at h
                            injection h with h'
                            injection h' with h1 h2
                            subst h1; subst h2
                            refine ⟨by simp [push]; omega, by simp [push], fun hw => ?_⟩
                            exact wfIR_concat nodes1 _ (hwf1 hw)
                              (by simp [kidsLT]; exact hbase1)
                        | none =>
                            rw [hsp] at h
                            cases hbin : classify_binary m with
                            | some bty =>
                                rw [hbin] at h
                                cases hfc : first_call_arg args with
                                | none =>
                                    rw [hfc] at h
                                    injection h with h'
                                    injection h' with h1 h2
                                    subst h1; subst h2
                                    exact ⟨hlen1, hbase1, hwf1⟩
                                | some rcall =>
                                    rw [hfc] at h
                                    simp only at h
                                    cases hrght : buildExpr rcall nodes1 with
                                    | none => rw [hrght] at h; cases h
                                    | some q =>
                                        obtain ⟨rightN, nodes2⟩ := q
                                        rw [hrght] at h
                                        have hszc : sizeOf rcall ≤ n := by
                                          have hfs := first_call_arg_sizeOf args rcall hfc
                                          simp_arith [JsExpr.call.sizeOf_spec,
                                            JsExpr.member.sizeOf_spec] at he
                                          omega
                                        obtain ⟨hlen2, hright2, hwf2⟩ :=
                                          ihN rcall hszc nodes1 rightN nodes2 hrght
                                        injection h with h'
                                        injection h' with h1 h2
                                        subst h1; subst h2
                                        refine ⟨by simp [push]; omega, by simp [push],
                                          fun hw => ?_⟩
                                        refine wfIR_concat nodes2 _ (hwf2 (hwf1 hw)) ?_
                                        simp only [kidsLT, Bool.and_eq_true,
                                          decide_eq_true_eq]
                                        exact ⟨lt_of_lt_of_le hbase1 hlen2, hright2⟩
                            | none =>
                                rw [hbin] at h
                                cases hun : classify_unary_color m with
                                | some uty =>
                                    rw [hun] at h
                                    injection h with h'
                                    injection h' with h1 h2
                                    subst h1; subst h2
                                    refine ⟨by simp [push]; omega, by simp [push], fun hw => ?_⟩
                                    exact wfIR_concat nodes1 _ (hwf1 hw)
                                      (by simp [kidsLT]; exact hbase1)
                                | none =>
                                    rw [hun] at h
                                    injection h with h'
                                    injection h' with h1 h2
                                    subst h1; subst h2
                                    exact ⟨hlen1, hbase1, hwf1⟩

/-- An unknown chained method name (not out, not spatial, not binary, not
    unary-color) returns the receiver's build result unchanged. -/
lemma method_passthrough (obj : JsExpr) (args : List JsExpr) (nodes : List IRKind)
    (m : String) (hout : m ≠ "out") (hsp : classify_spatial m = none)
    (hbin : classify_binary m = none) (hun : classify_unary_color m = none) :
    buildExpr (JsExpr.call (JsExpr.member obj (some m)) args) nodes =
      buildExpr obj nodes := by
  cases hobj : buildExpr obj nodes with
  | none => simp only [buildExpr, hobj]
  | some p =>
      obtain ⟨base, nodes1⟩ := p
      simp only [buildExpr, hobj, if_neg hout, hsp, hbin, hun]

/-- A name in the binary table is not the out method and not in the spatial
    table. -/
lemma classify_binary_not_out_spatial (m : String) (bty : BinaryType)
    (hb : classify_binary m = some bty) :
    m ≠ "out" ∧ classify_spatial m = none := by
  unfold classify_binary at hb
  split_ifs at hb
  all_goals subst_vars
  all_goals exact ⟨by decide, by rfl⟩

/-! ## Concrete fixtures used for counterexamples and witnesses -/

/-- A concrete Prims instantiation (all transcendental results 0). -/
def P0 : Prims := ⟨fun _ => 0, fun _ => 0, fun _ _ => 0, fun _ => 0, fun _ _ => 0⟩

/-- A concrete Prims instantiation with cos constantly 1 (so cos 0 = 1 and
    sin 0 = 0 hold, as for the real functions). -/
def P1 : Prims := ⟨fun _ => 0, fun _ => 1, fun _ _ => 0, fun _ => 0, fun _ _ => 0⟩

/-- The empty output-buffer map. -/
def bufs0 : Buffers := fun _ => none

/-- gradient at node 0, solid(1,1,1,1) at node 1, modulate with empty args
    combining them at node 2. -/
def irmodA : List IRKind :=
  [IRKind.source SourceType.gradient [], IRKind.source SourceType.solid [1, 1, 1, 1],
   IRKind.binary BinaryType.modulate [] 0 1]

/-- Same graph with explicit amount 1. -/
def irmodB : List IRKind :=
  [IRKind.source SourceType.gradient [], IRKind.source SourceType.solid [1, 1, 1, 1],
   IRKind.binary BinaryType.modulate [1] 0 1]

/-- solid(1,1,1,1) at node 0, gradient at node 1, modulate(left=gradient,
    right=solid, empty args) at node 2. -/
def irC1 : List IRKind :=
  [IRKind.source SourceType.solid [1, 1, 1, 1], IRKind.source SourceType.gradient [],
   IRKind.binary BinaryType.modulate [] 1 0]

/-- solid(r,g,b,a) at node 0, out(0) at node 1, src(0) at node 2. -/
def irC6 (r g b a : ℚ) : List IRKind :=
  [IRKind.source SourceType.solid [r, g, b, a], IRKind.output 0 0,
   IRKind.source SourceType.src [0]]

/-! ## Claim theorems -/

/-- C1: for a Binary node of kind Modulate or ModulateScale the evaluator
    first evaluates the right subtree at the current coordinate to obtain
    the modulator color m (threading its buffer effects), then re-evaluates
    the left subtree at the derived coordinate — for Modulate
    new = clamp01(coord + ((m.r, m.g) - 0.5) * amount), for ModulateScale
    the centered coordinate divided by factor = 1 + luma(m) * amount — and
    returns that re-evaluated color, not a post-blend of two colors. -/
theorem C1_modulating_binary_resamples_left (P : Prims) (time : ℚ)
    (ir : List IRKind) (fuel id lhs rhs : Nat) (args : List ℚ) (coord : Vec2)
    (bufs : Buffers) (m : Color) (bufs1 : Buffers) :
    (ir.get? id = some (IRKind.binary BinaryType.modulate args lhs rhs) →
      emit_ir_node P time ir fuel rhs coord bufs = some (m, bufs1) →
      emit_ir_node P time ir (fuel + 1) id coord bufs =
        emit_ir_node P time ir fuel lhs
          ⟨clamp01 (coord.x + (m.r - 0.5) * ((args.get? 0).getD 0.5)),
           clamp01 (coord.y + (m.g - 0.5) * ((args.get? 0).getD 0.5))⟩ bufs1) ∧
    (ir.get? id = some (IRKind.binary BinaryType.modulateScale args lhs rhs) →
      emit_ir_node P time ir fuel rhs coord bufs = some (m, bufs1) →
      emit_ir_node P time ir (fuel + 1) id coord bufs =
        emit_ir_node P time ir fuel lhs
          ⟨(coord.x - 0.5) / (1 + luma m * ((args.get? 0).getD 0.5)) + 0.5,
           (coord.y - 0.5) / (1 + luma m * ((args.get? 0).getD 0.5)) + 0.5⟩ bufs1) := by
  constructor
  · intro hget hr
    simp only [emit_ir_node, hget, hr]
    rfl
  · intro hget hr
    have hstep : emit_ir_node P time ir (fuel + 1) id coord bufs =
        emit_ir_node P time ir fuel lhs
          (scale_coord_from_color coord m ((args.get? 0).getD 0.5)) bufs1 := by
      simp only [emit_ir_node, hget, hr]
      rfl
    rw [hstep]
    have hvec : scale_coord_from_color coord m ((args.get? 0).getD 0.5) =
        ⟨(coord.x - 0.5) / (1 + luma m * ((args.get? 0).getD 0.5)) + 0.5,
         (coord.y - 0.5) / (1 + luma m * ((args.get? 0).getD 0.5)) + 0.5⟩ := by
      simp only [scale_coord_from_color, mul_one_div]
    rw [hvec]

/-- C1 witness: in the concrete graph irC1 the modulate node 2 with
    modulator solid(1,1,1,1) and empty args re-evaluates the gradient
    (node 1) at the displaced coordinate (0.25, 0.25). -/
theorem C1_modulating_binary_resamples_left_witness :
    emit_ir_node P0 0 irC1 2 2 ⟨0, 0⟩ bufs0 =
      emit_ir_node P0 0 irC1 1 1
        ⟨clamp01 (0 + (1 - 0.5) * 0.5), clamp01 (0 + (1 - 0.5) * 0.5)⟩ bufs0 :=
  (C1_modulating_binary_resamples_left P0 0 irC1 1 2 1 0 [] ⟨0, 0⟩ bufs0
    ⟨1, 1, 1, 1⟩ bufs0).1 rfl rfl

/-- C2 (code bug): clamp_vec4 reassembles the alpha channel without
    clamping it, so a pipeline whose root color has alpha outside [0,1]
    (solid(0,0,0,2)) stores a FragColor with alpha 2: the claimed
    "alpha preserved and then clamped" does not hold. -/
theorem C2_final_alpha_not_clamped :
    final_frag_color ⟨0, 0, 0, 2⟩ = ⟨0, 0, 0, 2⟩ ∧
    ¬ (final_frag_color ⟨0, 0, 0, 2⟩).a ≤ 1 := by
  constructor <;>
    norm_num [final_frag_color, clamp_vec4, tone_map_aces, apply_auto_exposure,
      luma, clamp01, rmin, rmax]

/-- C3 (code bug): the src fallback calls emit_solid with the src call's
    own argument list, so an undefined src(1) yields vec4(1,0,0,1) instead
    of the documented solid() default vec4(0,0,0,1). -/
theorem C3_src_fallback_uses_src_args :
    emit_source P0 0 SourceType.src [1] ⟨0, 0⟩ bufs0 = some ⟨1, 0, 0, 1⟩ ∧
    (⟨1, 0, 0, 1⟩ : Color) ≠ (⟨0, 0, 0, 1⟩ : Color) := by decide

/-- C4 counterexample: a Modulate node with empty args (default amount 0.5)
    does not evaluate like the same node with amount 1 — at coordinate
    (0,0) with modulator solid(1,1,1,1) the gradient is resampled at 0.25
    versus 0.5. -/
theorem C4_counterexample_modulate_default :
    (emit_ir_node P0 0 irmodA 3 2 ⟨0, 0⟩ bufs0).map Prod.fst ≠
    (emit_ir_node P0 0 irmodB 3 2 ⟨0, 0⟩ bufs0).map Prod.fst := by
  have hne : BinaryType.modulate ≠ BinaryType.modulateScale := by decide
  norm_num [emit_ir_node, irmodA, irmodB, emit_source, emit_gradient, emit_solid,
    get_arg_or_default, displace_coord_from_color, clamp01, rmin, rmax, P0, bufs0,
    List.get?, Option.getD, if_neg hne]

/-- C4 amended: a Binary node with empty args behaves as amount 1 for add,
    sub, mult and blend, but as amount 0.5 for modulate and modulateScale;
    diff and layer ignore the amount entirely. -/
theorem C4_amended_amount_defaults (P : Prims) (time : ℚ) (ir : List IRKind)
    (lhs rhs fuel : Nat) (coord : Vec2) (bufs : Buffers) (a b : Color)
    (args1 args2 : List ℚ) (hwf : wfIR ir = true)
    (hl : lhs < ir.length) (hr : rhs < ir.length) :
    (emit_standard_binary P BinaryType.add [] a b =
      emit_standard_binary P BinaryType.add [1] a b) ∧
    (emit_standard_binary P BinaryType.sub [] a b =
      emit_standard_binary P BinaryType.sub [1] a b) ∧
    (emit_standard_binary P BinaryType.mult [] a b =
      emit_standard_binary P BinaryType.mult [1] a b) ∧
    (emit_standard_binary P BinaryType.blend [] a b =
      emit_standard_binary P BinaryType.blend [1] a b) ∧
    (emit_ir_node P time (ir ++ [IRKind.binary BinaryType.modulate [] lhs rhs])
        fuel ir.length coord bufs =
      emit_ir_node P time (ir ++ [IRKind.binary BinaryType.modulate [0.5] lhs rhs])
        fuel ir.length coord bufs) ∧
    (emit_ir_node P time (ir ++ [IRKind.binary BinaryType.modulateScale [] lhs rhs])
        fuel ir.length coord bufs =
      emit_ir_node P time (ir ++ [IRKind.binary BinaryType.modulateScale [0.5] lhs rhs])
        fuel ir.length coord bufs) ∧
    (emit_standard_binary P BinaryType.diff args1 a b =
      emit_standard_binary P BinaryType.diff args2 a b) ∧
    (emit_standard_binary P BinaryType.layer args1 a b =
      emit_standard_binary P BinaryType.layer args2 a b) := by
  have hne : BinaryType.modulate ≠ BinaryType.modulateScale := by decide
  refine ⟨rfl, rfl, rfl, rfl, ?_, ?_, rfl, rfl⟩
  · cases fuel with
    | zero => rfl
    | succ n =>
        simp only [emit_ir_node]
        rw [get?_length_concat, get?_length_concat]
        simp only
        rw [emit_ir_node_append_congr P time ir
          (IRKind.binary BinaryType.modulate [] lhs rhs)
          (IRKind.binary BinaryType.modulate [0.5] lhs rhs) hwf n rhs coord bufs hr]
        cases hres : emit_ir_node P time
            (ir ++ [IRKind.binary BinaryType.modulate [0.5] lhs rhs]) n rhs coord bufs with
        | none => rfl
        | some p =>
            obtain ⟨mc, b1⟩ := p
            simp only [List.get?, Option.getD_none, Option.getD_some, if_neg hne]
            rw [emit_ir_node_append_congr P time ir
              (IRKind.binary BinaryType.modulate [] lhs rhs)
              (IRKind.binary BinaryType.modulate [0.5] lhs rhs) hwf n lhs
              (displace_coord_from_color coord mc 0.5) b1 hl]
  · cases fuel with
    | zero => rfl
    | succ n =>
        simp only [emit_ir_node]
        rw [get?_length_concat, get?_length_concat]
        simp only
        rw [emit_ir_node_append_congr P time ir
          (IRKind.binary BinaryType.modulateScale [] lhs rhs)
          (IRKind.binary BinaryType.modulateScale [0.5] lhs rhs) hwf n rhs coord bufs hr]
        cases hres : emit_ir_node P time
            (ir ++ [IRKind.binary BinaryType.modulateScale [0.5] lhs rhs]) n rhs coord bufs with
        | none => rfl
        | some p =>
            obtain ⟨mc, b1⟩ := p
            simp only [List.get?, Option.getD_none, Option.getD_some,
              if_pos (rfl : BinaryType.modulateScale = BinaryType.modulateScale),
              if_true]
            rw [emit_ir_node_append_congr P time ir
              (IRKind.binary BinaryType.modulateScale [] lhs rhs)
              (IRKind.binary BinaryType.modulateScale [0.5] lhs rhs) hwf n lhs
              (scale_coord_from_color coord mc 0.5) b1 hl]

/-- C4 amended witness: the modulate conjunct at a concrete one-node graph. -/
theorem C4_amended_amount_defaults_witness :
    emit_ir_node P0 0 ([IRKind.source SourceType.gradient []] ++
        [IRKind.binary BinaryType.modulate [] 0 0]) 2 1 ⟨0, 0⟩ bufs0 =
      emit_ir_node P0 0 ([IRKind.source SourceType.gradient []] ++
        [IRKind.binary BinaryType.modulate [0.5] 0 0]) 2 1 ⟨0, 0⟩ bufs0 :=
  (C4_amended_amount_defaults P0 0 [IRKind.source SourceType.gradient []] 0 0 2
    ⟨0, 0⟩ bufs0 ⟨0, 0, 0, 1⟩ ⟨0, 0, 0, 1⟩ [] [] rfl (by decide) (by decide)).2.2.2.2.1

/-- C5 counterexample: osc().modulateRotate(noise(), 0.5) builds exactly
    the same single-source IR as osc() alone — the builder passes the
    receiver through unchanged instead of producing a Modulate node. -/
theorem C5_counterexample_modulateRotate_passthrough :
    buildExpr (JsExpr.call (JsExpr.member (JsExpr.call (JsExpr.ident "osc") [])
        (some "modulateRotate"))
        [JsExpr.call (JsExpr.ident "noise") [], JsExpr.num 0.5]) [] =
      some (0, [IRKind.source SourceType.osc []]) ∧
    buildExpr (JsExpr.call (JsExpr.ident "osc") []) [] =
      some (0, [IRKind.source SourceType.osc []]) := by
  constructor
  · simp [buildExpr, classify_source, classify_spatial, classify_binary,
      classify_unary_color, push, extract_f32_args]
  · simp [buildExpr, classify_source, push, extract_f32_args]

/-- C5 amended: the seven modulate-variant method names are not in the
    binary table (nor any other table); like any unknown method they pass
    the receiver's node through unchanged. -/
theorem C5_amended_modulate_synonyms_passthrough (obj : JsExpr)
    (args : List JsExpr) (nodes : List IRKind) :
    (buildExpr (JsExpr.call (JsExpr.member obj (some "modulateRotate")) args) nodes =
      buildExpr obj nodes) ∧
    (buildExpr (JsExpr.call (JsExpr.member obj (some "modulateRepeat")) args) nodes =
      buildExpr obj nodes) ∧
    (buildExpr (JsExpr.call (JsExpr.member obj (some "modulatePixelate")) args) nodes =
      buildExpr obj nodes) ∧
    (buildExpr (JsExpr.call (JsExpr.member obj (some "modulateHue")) args) nodes =
      buildExpr obj nodes) ∧
    (buildExpr (JsExpr.call (JsExpr.member obj (some "modulateKaleid")) args) nodes =
      buildExpr obj nodes) ∧
    (buildExpr (JsExpr.call (JsExpr.member obj (some "modulateScrollX")) args) nodes =
      buildExpr obj nodes) ∧
    (buildExpr (JsExpr.call (JsExpr.member obj (some "modulateScrollY")) args) nodes =
      buildExpr obj nodes) :=
  ⟨method_passthrough obj args nodes "modulateRotate" (by decide) rfl rfl rfl,
   method_passthrough obj args nodes "modulateRepeat" (by decide) rfl rfl rfl,
   method_passthrough obj args nodes "modulatePixelate" (by decide) rfl rfl rfl,
   method_passthrough obj args nodes "modulateHue" (by decide) rfl rfl rfl,
   method_passthrough obj args nodes "modulateKaleid" (by decide) rfl rfl rfl,
   method_passthrough obj args nodes "modulateScrollX" (by decide) rfl rfl rfl,
   method_passthrough obj args nodes "modulateScrollY" (by decide) rfl rfl rfl⟩

/-- C6: evaluating out(0) over solid(r,g,b,a) stores the solid color in
    buffer o0 and returns it, and evaluating src(0) afterwards (at any
    coordinate) returns exactly that color — the same color solid(r,g,b,a)
    alone evaluates to. -/
theorem C6_out_src_roundtrip (P : Prims) (time r g b a : ℚ)
    (coord coord2 : Vec2) (bufs : Buffers) :
    emit_ir_node P time (irC6 r g b a) 2 1 coord bufs =
      some (⟨r, g, b, a⟩, updateBuf bufs 0 ⟨r, g, b, a⟩) ∧
    emit_ir_node P time (irC6 r g b a) 1 2 coord2 (updateBuf bufs 0 ⟨r, g, b, a⟩) =
      some (⟨r, g, b, a⟩, updateBuf bufs 0 ⟨r, g, b, a⟩) ∧
    emit_ir_node P time (irC6 r g b a) 1 0 coord2 bufs =
      some (⟨r, g, b, a⟩, bufs) := by
  refine ⟨rfl, rfl, rfl⟩

/-- C7: a chained method whose name is in none of the source, spatial,
    unary-color or binary tables and is not out yields the receiver's
    build result unchanged (hence the same IR root color). -/
theorem C7_unknown_method_passthrough (m : String) (obj : JsExpr)
    (args : List JsExpr) (nodes : List IRKind)
    (_hsrc : classify_source m = none) (hsp : classify_spatial m = none)
    (hun : classify_unary_color m = none) (hbin : classify_binary m = none)
    (hout : m ≠ "out") :
    buildExpr (JsExpr.call (JsExpr.member obj (some m)) args) nodes =
      buildExpr obj nodes :=
  method_passthrough obj args nodes m hout hsp hbin hun

/-- C7 witness: osc().noSuchMethod() builds the same as osc(). -/
theorem C7_unknown_method_passthrough_witness :
    buildExpr (JsExpr.call (JsExpr.member (JsExpr.call (JsExpr.ident "osc") [])
        (some "noSuchMethod")) []) [] =
      buildExpr (JsExpr.call (JsExpr.ident "osc") []) [] :=
  C7_unknown_method_passthrough "noSuchMethod" (JsExpr.call (JsExpr.ident "osc") [])
    [] [] rfl rfl rfl rfl (by decide)

/-- C8 counterexample: repeat(1,1) maps the coordinate (3/2, 1/2) to
    (1/2, 1/2), so it is not the identity on every input coordinate. -/
theorem C8_counterexample_repeat_not_identity :
    repeat_coord ⟨3 / 2, 1 / 2⟩ 1 1 ≠ ⟨3 / 2, 1 / 2⟩ := by
  have hmax : rmax (1 : ℚ) 0.0001 = 1 := by norm_num [rmax]
  have hf : ⌊(3 / 2 : ℚ)⌋ = 1 := by
    rw [Int.floor_eq_iff]
    norm_num
  simp only [repeat_coord, hmax, mul_one, fract, rfloor, hf, Vec2.mk.injEq, not_and]
  intro hx
  norm_num at hx

/-- C8 amended: scale(1,1) and rotate(0,0) leave every coordinate
    unchanged (given cos 0 = 1 and sin 0 = 0); repeat(1,1) leaves a
    coordinate unchanged when both components lie in [0, 1). -/
theorem C8_amended_spatial_identities (P : Prims) (time : ℚ) (coord : Vec2)
    (hc : P.rcos 0 = 1) (hs : P.rsin 0 = 0) :
    scale_coord coord 1 1 = coord ∧
    rotate_coord P time coord 0 0 = coord ∧
    ((0 ≤ coord.x ∧ coord.x < 1 ∧ 0 ≤ coord.y ∧ coord.y < 1) →
      repeat_coord coord 1 1 = coord) := by
  obtain ⟨x, y⟩ := coord
  refine ⟨?_, ?_, ?_⟩
  · simp only [scale_coord]
    rw [show rmax (1 : ℚ) 0.000001 = 1 by norm_num [rmax]]
    simp only [Vec2.mk.injEq]
    constructor <;> ring
  · simp only [rotate_coord]
    rw [show (0 : ℚ) + time * 0 = 0 by ring, hc, hs]
    simp only [Vec2.mk.injEq]
    constructor <;> ring
  · rintro ⟨hx0, hx1, hy0, hy1⟩
    simp only [repeat_coord]
    rw [show rmax (1 : ℚ) 0.0001 = 1 by norm_num [rmax]]
    have hfx : (⌊x * 1⌋ : ℤ) = 0 := by
      rw [mul_one]; exact Int.floor_eq_zero_iff.mpr ⟨hx0, hx1⟩
    have hfy : (⌊y * 1⌋ : ℤ) = 0 := by
      rw [mul_one]; exact Int.floor_eq_zero_iff.mpr ⟨hy0, hy1⟩
    simp only [fract, rfloor, hfx, hfy, Vec2.mk.injEq]
    constructor <;> push_cast <;> ring

/-- C8 amended witness at the interior point (1/4, 1/3) with the concrete
    primitives P1 (cos constantly 1, sin constantly 0). -/
theorem C8_amended_spatial_identities_witness :
    scale_coord ⟨1 / 4, 1 / 3⟩ 1 1 = ⟨1 / 4, 1 / 3⟩ ∧
    rotate_coord P1 0 ⟨1 / 4, 1 / 3⟩ 0 0 = ⟨1 / 4, 1 / 3⟩ ∧
    repeat_coord ⟨1 / 4, 1 / 3⟩ 1 1 = ⟨1 / 4, 1 / 3⟩ := by
  obtain ⟨h1, h2, h3⟩ :=
    C8_amended_spatial_identities P1 0 ⟨1 / 4, 1 / 3⟩ rfl rfl
  exact ⟨h1, h2, h3 (by norm_num)⟩

/-- C9: in any IR graph the builder produces from an input expression,
    every node only references child ids strictly smaller than its own id. -/
theorem C9_builder_children_strictly_smaller (e : JsExpr) (id : Nat)
    (nodes : List IRKind) (h : buildExpr e [] = some (id, nodes)) :
    ∀ i k, nodes.get? i = some k → kidsLT k i = true := by
  intro i k hik
  exact wfIR_get? nodes i k
    ((buildExpr_invariant (sizeOf e) e le_rfl [] id nodes h).2.2 rfl) hik

/-- C9 witness: applied to the graph built from osc(). -/
theorem C9_builder_children_strictly_smaller_witness :
    kidsLT (IRKind.source SourceType.osc []) 0 = true :=
  C9_builder_children_strictly_smaller (JsExpr.call (JsExpr.ident "osc") []) 0
    [IRKind.source SourceType.osc []]
    (by simp [buildExpr, classify_source, push, extract_f32_args])
    0 (IRKind.source SourceType.osc []) rfl

/-- C10: a recognized binary method whose first argument is absent or not
    itself a call expression builds no Binary node: the builder returns the
    receiver's build result unchanged, so the chain evaluates to the same
    color as the chain without the binary call. -/
theorem C10_binary_without_call_arg_passthrough (m : String) (bty : BinaryType)
    (obj : JsExpr) (args : List JsExpr) (nodes : List IRKind)
    (hb : classify_binary m = some bty) (hfc : first_call_arg args = none) :
    buildExpr (JsExpr.call (JsExpr.member obj (some m)) args) nodes =
      buildExpr obj nodes := by
  obtain ⟨hout, hsp⟩ := classify_binary_not_out_spatial m bty hb
  cases hobj : buildExpr obj nodes with
  | none => simp only [buildExpr, hobj]
  | some p =>
      obtain ⟨base, nodes1⟩ := p
      simp only [buildExpr, hobj, if_neg hout, hsp, hb]
      split
      · rename_i rcall heq
        rw [hfc] at heq
        cases heq
      · rfl

/-- C10 witness: osc().add(1) builds the same as osc(). -/
theorem C10_binary_without_call_arg_passthrough_witness :
    buildExpr (JsExpr.call (JsExpr.member (JsExpr.call (JsExpr.ident "osc") [])
        (some "add")) [JsExpr.num 1]) [] =
      buildExpr (JsExpr.call (JsExpr.ident "osc") []) [] :=
  C10_binary_without_call_arg_passthrough "add" BinaryType.add
    (JsExpr.call (JsExpr.ident "osc") []) [JsExpr.num 1] [] rfl rfl

end LiveLang
